import Mathlib

/-!
Shallow Lean embedding of app.py (Bookster booking list to iCal generator):
the booking normalizer (map_booking_to_event_data and its helpers) and the
calendar renderer (render_calendar).

Embedding conventions:
  - Python dynamic values are embedded as PyVal; a raw booking record is a
    string-keyed association list (Rec).
  - The one uncaught exception the mapped code can raise, AttributeError
    from calling .lower() / .strip() / .upper() on a non-string truthy
    value, is embedded with Except PErr.  All other exception sites in the
    source sit inside try/except blocks and are embedded as Option.
  - Calendar dates are embedded as Int day numbers (days since 1970-01-01),
    with the civil-calendar conversions written out so date.isoformat() is
    executable; the while-loop of _expand_stay_days is embedded as
    structural recursion on the (exact) iteration count.
  - Python floats are embedded as rationals; the external float()/int()
    string coercions are embedded over the plain decimal-literal subset.
  - External library calls (dateutil.parser.parse, icalendar serialization)
    are embedded only to the extent the mapped code relies on them:
    dateutil is embedded on ISO YYYY-MM-DD strings, and the renderer is
    embedded down to the list of events (summary, dtstart, dtend, uid,
    description) plus the calendar-level metadata, not to serialized bytes.
  - Leading underscores of the Python helper names are dropped.
-/

inductive PyVal where
  | none
  | str (s : String)
  | int (n : Int)
  | float (q : ℚ)
  | pydate (day : Int)
  | pydatetime (day : Int)
  | list (xs : List PyVal)
  | dict (entries : List (String × PyVal))

inductive PErr where
  | attributeError
  deriving DecidableEq

abbrev Rec : Type := List (String × PyVal)

/-- Python dict.get(k) with default None, for a string-keyed record. -/
def dget (b : Rec) (k : String) : PyVal :=
  match b.find? (fun p => p.1 == k) with
  | Option.some p => p.2
  | Option.none => PyVal.none

/-- Python dict.get(k, dflt). -/
def dgetD (b : List (String × PyVal)) (k : String) (dflt : PyVal) : PyVal :=
  match b.find? (fun p => p.1 == k) with
  | Option.some p => p.2
  | Option.none => dflt

/-- Python truthiness for the embedded values. -/
def truthy : PyVal → Bool
  | PyVal.none => false
  | PyVal.str s => !(s == "")
  | PyVal.int n => !(n == 0)
  | PyVal.float q => !(q == 0)
  | PyVal.pydate _ => true
  | PyVal.pydatetime _ => true
  | PyVal.list xs => !xs.isEmpty
  | PyVal.dict d => !d.isEmpty

/-- Python `a or b`. -/
def pyOr (a b : PyVal) : PyVal := if truthy a then a else b

/-- Python `v == "lit"` for a string literal: only equal strings compare equal. -/
def pyEqStrB (v : PyVal) (s : String) : Bool :=
  match v with
  | PyVal.str t => t == s
  | _ => false

/-- ASCII lower-casing of one character (model of Python str.lower). -/
def asciiLower (c : Char) : Char :=
  if 65 ≤ c.toNat ∧ c.toNat ≤ 90 then Char.ofNat (c.toNat + 32) else c

/-- ASCII upper-casing of one character (model of Python str.upper). -/
def asciiUpper (c : Char) : Char :=
  if 97 ≤ c.toNat ∧ c.toNat ≤ 122 then Char.ofNat (c.toNat - 32) else c

def strLower (s : String) : String := String.mk (s.toList.map asciiLower)

def strUpper (s : String) : String := String.mk (s.toList.map asciiUpper)

def isSpaceChar (c : Char) : Bool := c == ' ' || c == '\t' || c == '\n' || c == '\r'

/-- Model of Python str.strip(): drop surrounding whitespace. -/
def strTrim (s : String) : String :=
  String.mk (((s.toList.dropWhile isSpaceChar).reverse.dropWhile isSpaceChar).reverse)

/-- Model of Python str.capitalize(): first char upper, rest lower. -/
def capitalize (s : String) : String :=
  match s.toList with
  | [] => ""
  | c :: cs => String.mk (asciiUpper c :: cs.map asciiLower)

/-- Substring test, Python `needle in hay`. -/
def strIn (needle hay : String) : Bool :=
  (List.range (hay.toList.length + 1)).any
    (fun i => needle.toList.isPrefixOf (hay.toList.drop i))

def natOfDigits (cs : List Char) : Nat :=
  cs.foldl (fun a c => a * 10 + (c.toNat - 48)) 0

def pad2 (n : Nat) : String := if n < 10 then "0" ++ Nat.repr n else Nat.repr n

def pad4 (n : Nat) : String :=
  if n < 10 then "000" ++ Nat.repr n
  else if n < 100 then "00" ++ Nat.repr n
  else if n < 1000 then "0" ++ Nat.repr n
  else Nat.repr n

/-- Day number (1970-01-01 = 0) of a proleptic-Gregorian civil date. -/
def daysFromCivil (y0 : Int) (m d : Nat) : Int :=
  let y : Int := if m ≤ 2 then y0 - 1 else y0
  let era : Int := Int.ediv y 400
  let yoe : Nat := (y - era * 400).toNat
  let doy : Nat := (153 * (if m > 2 then m - 3 else m + 9) + 2) / 5 + d - 1
  let doe : Nat := yoe * 365 + yoe / 4 - yoe / 100 + doy
  era * 146097 + (doe : Int) - 719468

/-- Civil date (year, month, day) of a day number. -/
def civilFromDays (z0 : Int) : Int × Nat × Nat :=
  let z := z0 + 719468
  let era : Int := Int.ediv z 146097
  let doe : Nat := (z - era * 146097).toNat
  let yoe : Nat := (doe - doe / 1460 + doe / 36524 - doe / 146096) / 365
  let y : Int := era * 400 + yoe
  let doy : Nat := doe - (365 * yoe + yoe / 4 - yoe / 100)
  let mp : Nat := (5 * doy + 2) / 153
  let d : Nat := doy - (153 * mp + 2) / 5 + 1
  let m : Nat := if mp < 10 then mp + 3 else mp - 9
  (if m ≤ 2 then y + 1 else y, m, d)

/-- Python date.isoformat() on a day number. -/
def isoOfDay (z : Int) : String :=
  let c := civilFromDays z
  (if c.1 < 0 then "-" ++ pad4 c.1.natAbs else pad4 c.1.toNat) ++
    "-" ++ pad2 c.2.1 ++ "-" ++ pad2 c.2.2

/-- Python str() of an embedded value.  Exact for None, strings and ints
(the only cases the mapped code's claims exercise); float, date and
container renderings are deterministic stand-ins. -/
def pyStr : PyVal → String
  | PyVal.none => "None"
  | PyVal.str s => s
  | PyVal.int n => Int.repr n
  | PyVal.float q => Int.repr q.num ++ "/" ++ Nat.repr q.den
  | PyVal.pydate d => isoOfDay d
  | PyVal.pydatetime d => isoOfDay d ++ " 00:00:00"
  | PyVal.list _ => "[...]"
  | PyVal.dict _ => "(dict)"

/-- Truncation of a rational toward zero (Python int() on a float). -/
def ratTrunc (q : ℚ) : Int := if 0 ≤ q then Rat.floor q else -(Rat.floor (-q))

/-- Python max(a, b) on two numbers. -/
def pyMax (a b : ℚ) : ℚ := if a < b then b else a

/-- Python abs() on a number. -/
def pyAbs (q : ℚ) : ℚ := if q < 0 then -q else q

/-- Model of Python int() on a string: optional sign and decimal digits,
surrounding whitespace allowed; anything else fails. -/
def parseIntStr (s : String) : Option Int :=
  let cs := (strTrim s).toList
  match cs with
  | '-' :: r =>
      if !r.isEmpty && r.all Char.isDigit then Option.some (-(natOfDigits r : Int))
      else Option.none
  | '+' :: r =>
      if !r.isEmpty && r.all Char.isDigit then Option.some ((natOfDigits r : Int))
      else Option.none
  | r =>
      if !r.isEmpty && r.all Char.isDigit then Option.some ((natOfDigits r : Int))
      else Option.none

/-- Model of Python float() on a string, over the plain decimal-literal
subset (optional sign, digits, optional fractional part); exponent forms
and the inf/nan spellings are outside the mapped code's use and fail here. -/
def parseFloatStr (s : String) : Option ℚ :=
  let cs0 := (strTrim s).toList
  let sign : ℚ := match cs0 with | '-' :: _ => -1 | _ => 1
  let cs := match cs0 with | '-' :: r => r | '+' :: r => r | r => r
  let intPart := cs.takeWhile Char.isDigit
  let rest := cs.dropWhile Char.isDigit
  match rest with
  | [] =>
      if intPart.isEmpty then Option.none
      else Option.some (sign * (natOfDigits intPart : ℚ))
  | '.' :: frac =>
      if frac.all Char.isDigit && (!intPart.isEmpty || !frac.isEmpty) then
        Option.some (sign * ((natOfDigits intPart : ℚ) +
          (natOfDigits frac : ℚ) / (10 ^ frac.length)))
      else Option.none
  | _ => Option.none

/-- Python int() coercion of an embedded value; Option.none embeds the
TypeError/ValueError cases (always caught by the mapped code). -/
def pyInt : PyVal → Option Int
  | PyVal.int n => Option.some n
  | PyVal.float q => Option.some (ratTrunc q)
  | PyVal.str s => parseIntStr s
  | _ => Option.none

/-- Python float() coercion of an embedded value; Option.none embeds the
TypeError/ValueError cases (always caught by the mapped code). -/
def pyFloat : PyVal → Option ℚ
  | PyVal.int n => Option.some (n : ℚ)
  | PyVal.float q => Option.some q
  | PyVal.str s => parseFloatStr s
  | _ => Option.none

/-- Model of dateutil.parser.parse(...).date() restricted to ISO
YYYY-MM-DD strings, the shape the upstream feed delivers; dateutil's wider
free-form grammar is an external library outside this embedding, so any
other string fails (is embedded as the caught-exception branch). -/
def parseIsoDate (s : String) : Option Int :=
  match (strTrim s).splitOn "-" with
  | [ys, ms, ds] =>
      let yl := ys.toList
      let ml := ms.toList
      let dl := ds.toList
      if !yl.isEmpty && yl.all Char.isDigit && !ml.isEmpty && ml.all Char.isDigit &&
         !dl.isEmpty && dl.all Char.isDigit then
        let m := natOfDigits ml
        let d := natOfDigits dl
        if 1 ≤ m && m ≤ 12 && 1 ≤ d && d ≤ 31 then
          Option.some (daysFromCivil (natOfDigits yl) m d)
        else Option.none
      else Option.none
  | _ => Option.none

/-- app.py _to_date: date/datetime pass through (time truncated), numbers
are Unix epoch seconds in UTC, everything else goes through string date
parsing; every failure is caught and becomes None. -/
def to_date : PyVal → Option Int
  | PyVal.none => Option.none
  | PyVal.pydate d => Option.some d
  | PyVal.pydatetime d => Option.some d
  | PyVal.int n => Option.some (Int.ediv n 86400)
  | PyVal.float q => Option.some (Int.ediv (ratTrunc q) 86400)
  | v => parseIsoDate (pyStr v)

/-- Python `(v or "").strip()`: AttributeError on a truthy non-string. -/
def stripOrE (v : PyVal) : Except PErr String :=
  match pyOr v (PyVal.str "") with
  | PyVal.str s => Except.ok (strTrim s)
  | _ => Except.error PErr.attributeError

/-- Python `(v or "").lower()`: AttributeError on a truthy non-string. -/
def lowerOrE (v : PyVal) : Except PErr String :=
  match pyOr v (PyVal.str "") with
  | PyVal.str s => Except.ok (strLower s)
  | _ => Except.error PErr.attributeError

/-- Python `(v or "").upper()`: AttributeError on a truthy non-string. -/
def upperOrE (v : PyVal) : Except PErr String :=
  match pyOr v (PyVal.str "") with
  | PyVal.str s => Except.ok (strUpper s)
  | _ => Except.error PErr.attributeError

/-- The phone-field candidates of app.py _best_phone, in order. -/
def phoneKeys : List String :=
  ["customer_tel_mobile", "customer_tel_day", "customer_tel_evening",
   "customer_mobile", "customer_phone"]

def bestPhoneGo (b : Rec) : List String → Except PErr (Option String)
  | [] => Except.ok Option.none
  | k :: ks =>
      match stripOrE (dget b k) with
      | Except.error e => Except.error e
      | Except.ok s => if s ≠ "" then Except.ok (Option.some s) else bestPhoneGo b ks

/-- app.py _best_phone: first non-empty stripped value among the
candidate phone fields. -/
def best_phone (b : Rec) : Except PErr (Option String) := bestPhoneGo b phoneKeys

/-- app.py _party_size: None or blank text yields None, otherwise int(v),
with any failure caught to None. -/
def party_size (b : Rec) : Option Int :=
  match dget b "party_size" with
  | PyVal.none => Option.none
  | v => if strTrim (pyStr v) = "" then Option.none else pyInt v

/-- app.py _amount_paid: float both inputs (failure caught to None),
subtract, snap a difference below 1e-9 in magnitude to zero, clamp at
zero. -/
def amount_paid (value balance : PyVal) : Option ℚ :=
  match pyFloat value, pyFloat balance with
  | Option.some v, Option.some bal =>
      let paid := v - bal
      let paid := if pyAbs paid < 1 / 1000000000 then 0 else paid
      Option.some (pyMax 0 paid)
  | _, _ => Option.none

def PROPERTY_CODES : List (String × String) :=
  [("158596", "RR"), ("158595", "BO"), ("158497", "BB")]

/-- app.py _prop_code: entry-id lookup table first, then substring checks
on the lower-cased entry name, default "RR". -/
def prop_code (entry_id entry_name : PyVal) : Except PErr String :=
  let code :=
    (match PROPERTY_CODES.find? (fun p => p.1 == pyStr (pyOr entry_id (PyVal.str ""))) with
     | Option.some p => p.2
     | Option.none => "")
  if code ≠ "" then Except.ok code
  else
    match lowerOrE entry_name with
    | Except.error e => Except.error e
    | Except.ok name =>
        if strIn "redroofs by the woods" name || strIn "redroofs" name then Except.ok "RR"
        else if strIn "barn owl" name then Except.ok "BO"
        else if strIn "bumblebee" name then Except.ok "BB"
        else Except.ok "RR"

/-- Body of the while-loop of app.py _expand_stay_days: n more days
starting at cur (the loop runs exactly (departure - arrival).toNat times). -/
def stayDaysLoop : Nat → Int → List Int
  | 0, _ => []
  | n + 1, cur => cur :: stayDaysLoop n (cur + 1)

/-- app.py _expand_stay_days: every day with arrival ≤ day < departure,
plus the explicit checkout (0UT) day. -/
def expand_stay_days (arrival departure : Int) : List Int :=
  stayDaysLoop (departure - arrival).toNat arrival ++ [departure]

/-- Extras allow-list of app.py (EXTRA_ALLOWLIST). -/
def EXTRA_ALLOWLIST : List String :=
  ["pets", "pet", "dog", "dogs", "cat", "cats",
   "high chair", "infant cot", "cot", "twin beds", "twin bed", "twins"]

def filterExtrasGo : List PyVal → Except PErr (List String)
  | [] => Except.ok []
  | ln :: rest =>
      match ln with
      | PyVal.dict d =>
          if pyEqStrB (dget d "type") "extra" then
            match stripOrE (pyOr (dget d "name") (dget d "title")) with
            | Except.error e => Except.error e
            | Except.ok name =>
                if name = "" then filterExtrasGo rest
                else if EXTRA_ALLOWLIST.any (fun key => strIn key (strLower name)) then
                  let qty := pyOr (dget d "quantity") (dget d "qty")
                  let item := if truthy qty then name ++ " x" ++ pyStr qty else name
                  match filterExtrasGo rest with
                  | Except.error e => Except.error e
                  | Except.ok r => Except.ok (item :: r)
                else filterExtrasGo rest
          else filterExtrasGo rest
      | _ => filterExtrasGo rest

/-- app.py _filter_extras: keep only allow-listed extras from a lines
list, with an " x qty" suffix when a truthy quantity is present. -/
def filter_extras (lines : PyVal) : Except PErr (List String) :=
  match lines with
  | PyVal.list xs => filterExtrasGo xs
  | _ => Except.ok []

/-- Labels that often appear as "names" (app.py AIRBNB_LABELS). -/
def AIRBNB_LABELS : List String := ["adult", "child", "infant", "baby"]

/-- One processed entry of the party list: (display, category, age). -/
structure PartyEntry where
  nm : String
  cat : Option String
  age : Option Int
  deriving DecidableEq

/-- Python truthiness of an Optional[str]. -/
def optStrTruthy : Option String → Bool
  | Option.some s => !(s == "")
  | Option.none => false

/-- Python truthiness of an Optional[int]. -/
def optIntTruthy : Option Int → Bool
  | Option.some a => !(a == 0)
  | Option.none => false

/-- One iteration of the person loop of app.py _parse_party_list: a
non-dict person is skipped (Option.none); otherwise the (display,
category, age) tuple is built.  The source guards the two label checks
with name_is_label, which is the disjunction of those same checks, so
running them directly is the same function. -/
def procPerson : PyVal → Except PErr (Option PartyEntry)
  | PyVal.dict p =>
      match stripOrE (dgetD p "forename" (PyVal.str "")) with
      | Except.error e => Except.error e
      | Except.ok fn0 =>
          match stripOrE (dgetD p "surname" (PyVal.str "")) with
          | Except.error e => Except.error e
          | Except.ok ln0 =>
              match stripOrE (dgetD p "type" (PyVal.str "")) with
              | Except.error e => Except.error e
              | Except.ok tcat0 =>
                  let tcat := strLower tcat0
                  let age0 : Int := (pyInt (dgetD p "age" (PyVal.int 0))).getD 0
                  let fnl := strLower fn0
                  let lnl := strLower ln0
                  let cat0 : Option String :=
                    if AIRBNB_LABELS.contains tcat then Option.some (capitalize tcat)
                    else Option.none
                  let fn1 := if AIRBNB_LABELS.contains fnl then "" else fn0
                  let cat1 : Option String :=
                    if AIRBNB_LABELS.contains fnl then Option.some (capitalize fn0) else cat0
                  let ln1 := if AIRBNB_LABELS.contains lnl then "" else ln0
                  let cat2 : Option String :=
                    if AIRBNB_LABELS.contains lnl then
                      (if optStrTruthy cat1 then cat1 else Option.some (capitalize ln0))
                    else cat1
                  let full := strTrim (strTrim fn1 ++ " " ++ strTrim ln1)
                  let display := if full = "" && optStrTruthy cat2 then cat2.getD "" else full
                  let ageOpt : Option Int := if age0 > 0 then Option.some age0 else Option.none
                  Except.ok (Option.some ⟨display, cat2, ageOpt⟩)
  | _ => Except.ok Option.none

/-- The person loop of app.py _parse_party_list over the whole list. -/
def processParty : List PyVal → Except PErr (List PartyEntry)
  | [] => Except.ok []
  | p :: rest =>
      match procPerson p with
      | Except.error e => Except.error e
      | Except.ok t =>
          match processParty rest with
          | Except.error e => Except.error e
          | Except.ok r =>
              match t with
              | Option.some entry => Except.ok (entry :: r)
              | Option.none => Except.ok r

/-- The lead-search condition of app.py _parse_party_list:
`nm and nm.lower() == lead_full_name.lower()`. -/
def leadMatch (lead : String) (t : PartyEntry) : Bool :=
  !(t.nm == "") && (strLower t.nm == strLower lead)

/-- First entry matching the lead, together with the remaining entries in
order. -/
def goFindLead (lead : String) : List PartyEntry → Option (PartyEntry × List PartyEntry)
  | [] => Option.none
  | t :: ts =>
      if leadMatch lead t then Option.some (t, ts)
      else
        match goFindLead lead ts with
        | Option.some x => Option.some (x.1, t :: x.2)
        | Option.none => Option.none

/-- The lead-guest rearrangement of app.py _parse_party_list: no match
inserts (lead, None, None) at the front; a match at index i is popped and
re-inserted at index 0 (for i = 0 the source leaves the list unchanged,
which is the same list). -/
def leadRearrange (lead : String) (raw : List PartyEntry) : List PartyEntry :=
  match goFindLead lead raw with
  | Option.none => ⟨lead, Option.none, Option.none⟩ :: raw
  | Option.some x => x.1 :: x.2

/-- Truthiness of `(nm or cat or age)` for a processed entry. -/
def entryInfoB (t : PartyEntry) : Bool :=
  !(t.nm == "") || optStrTruthy t.cat || optIntTruthy t.age

/-- The meaningful_others condition of app.py _parse_party_list for one
entry: it has some info and its name differs from the lead's
(case-insensitively). -/
def meaningfulOther (lead : String) (t : PartyEntry) : Bool :=
  entryInfoB t && !(strLower t.nm == strLower lead)

/-- One "Guest N: ..." line of app.py _parse_party_list. -/
def entryLine (idx : Nat) (t : PartyEntry) : String :=
  let label :=
    if t.nm ≠ "" then t.nm
    else match t.cat with
         | Option.some c => if c ≠ "" then c else "Guest"
         | Option.none => "Guest"
  if optIntTruthy t.age then
    "Guest " ++ Nat.repr idx ++ ": " ++ label ++ " (age " ++ Int.repr (t.age.getD 0) ++ ")"
  else
    "Guest " ++ Nat.repr idx ++ ": " ++ label

def numberLines : Nat → List PartyEntry → List String
  | _, [] => []
  | idx, t :: rest => entryLine idx t :: numberLines (idx + 1) rest

/-- app.py _parse_party_list: process the raw party list, fall back to the
lead alone when empty, move/insert the lead to the front, and emit the
"Guest N: ..." lines unless only the lead carries information. -/
def parse_party_list (party : List PyVal) (lead : String) : Except PErr (List String) :=
  match processParty party with
  | Except.error e => Except.error e
  | Except.ok raw0 =>
      let raw1 := if raw0.isEmpty then [(⟨lead, Option.none, Option.none⟩ : PartyEntry)] else raw0
      let raw2 := leadRearrange lead raw1
      if raw2.any (meaningfulOther lead) then Except.ok (numberLines 1 raw2)
      else Except.ok []

/-- The canonical mapped booking of app.py map_booking_to_event_data. -/
structure EventData where
  id : PyVal
  guest : String
  arrival : Int
  departure : Int
  email : Option String
  phone : Option String
  party : Option Int
  party_raw : List PyVal
  extras : List String
  value : PyVal
  balance : PyVal
  paid : Option ℚ
  currency : Option String
  entry_id : PyVal
  entry_name : PyVal
  channel : PyVal

/-- The six text-field extractions of app.py map_booking_to_event_data
that can raise, in source order: forename, surname, email, phone, extras,
currency. -/
def textFields (b : Rec) :
    Except PErr (String × String × String × Option String × List String × String) :=
  match stripOrE (dget b "customer_forename") with
  | Except.error e => Except.error e
  | Except.ok first =>
      match stripOrE (dget b "customer_surname") with
      | Except.error e => Except.error e
      | Except.ok last =>
          match stripOrE (dget b "customer_email") with
          | Except.error e => Except.error e
          | Except.ok email =>
              match best_phone b with
              | Except.error e => Except.error e
              | Except.ok phone =>
                  match filter_extras (dget b "lines") with
                  | Except.error e => Except.error e
                  | Except.ok extras =>
                      match upperOrE (dget b "currency") with
                      | Except.error e => Except.error e
                      | Except.ok curU =>
                          Except.ok (first, last, email, phone, extras, curU)

/-- app.py map_booking_to_event_data: state filter, date requirement,
then field extraction into an EventData. -/
def map_booking_to_event_data (b : Rec) : Except PErr (Option EventData) :=
  match lowerOrE (dget b "state") with
  | Except.error e => Except.error e
  | Except.ok state =>
      if state ≠ "confirmed" then Except.ok Option.none
      else
        match to_date (dget b "start_inclusive"), to_date (dget b "end_exclusive") with
        | Option.some arrival, Option.some departure =>
            match textFields b with
            | Except.error e => Except.error e
            | Except.ok (first, last, email, phone, extras, curU) =>
                let fl := strTrim (first ++ " " ++ last)
                Except.ok (Option.some
                  { id := dget b "id",
                    guest := if fl = "" then "Guest" else fl,
                    arrival := arrival,
                    departure := departure,
                    email := if email = "" then Option.none else Option.some email,
                    phone := phone,
                    party := party_size b,
                    party_raw := (match dget b "party" with
                                  | PyVal.list xs => xs
                                  | _ => []),
                    extras := extras,
                    value := dget b "value",
                    balance := dget b "balance",
                    paid := amount_paid (dget b "value") (dget b "balance"),
                    currency := if curU = "" then Option.none else Option.some curU,
                    entry_id := dget b "entry_id",
                    entry_name := dget b "entry_name",
                    channel := dget b "syndicate_name" })
        | _, _ => Except.ok Option.none

/-- app.py _title_for_day: "IN" gets the party-size suffix (only when the
size is known), "OUT" is spelled "0UT" (digit zero) to sort first, MID is
the bare guest name; all carry the property code. -/
def title_for_day (kind guest : String) (party : Option Int) (code : String) : String :=
  if kind = "IN" then
    let suffix := match party with
                  | Option.some n => " x" ++ Int.repr n
                  | Option.none => ""
    "IN: " ++ guest ++ suffix ++ " (" ++ code ++ ")"
  else if kind = "OUT" then "0UT: " ++ guest ++ " (" ++ code ++ ")"
  else guest ++ " (" ++ code ++ ")"

/-- app.py _booking_url. -/
def booking_url (booking_id : PyVal) : Option String :=
  if !truthy booking_id then Option.none
  else Option.some ("https://app.booksterhq.com/bookings/" ++ pyStr booking_id ++ "/view")

/-- Two-decimal amount formatting (Python f-string .2f), to the nearest
hundredth. -/
def fmt2 (q : ℚ) : String :=
  let n : Int := Rat.floor (q * 100 + 1 / 2)
  (if n < 0 then "-" else "") ++ Nat.repr (n.natAbs / 100) ++ "." ++ pad2 (n.natAbs % 100)

/-- The description lines of render_calendar that precede the optional
Party details section: email, phone, party size, extras. -/
def descBeforeParty (m : EventData) : List String :=
  (if optStrTruthy m.email then ["Email: " ++ m.email.getD ""] else []) ++
  (if optStrTruthy m.phone then ["Mobile: " ++ m.phone.getD ""] else []) ++
  (match m.party with
   | Option.some n => ["Guests in party: " ++ Int.repr n]
   | Option.none => []) ++
  (if !m.extras.isEmpty then ["Extras: " ++ String.intercalate ", " m.extras] else [])

/-- The description lines of render_calendar that follow the optional
Party details section: property, channel, amount paid, booking link. -/
def descAfterParty (m : EventData) : List String :=
  (if truthy m.entry_name then ["Property: " ++ pyStr m.entry_name] else []) ++
  (if truthy m.channel then ["Channel: " ++ pyStr m.channel] else []) ++
  (match m.paid with
   | Option.some q =>
       ["Amount paid to us: " ++
         (if optStrTruthy m.currency then m.currency.getD "" ++ " " ++ fmt2 q else fmt2 q)]
   | Option.none => []) ++
  (match booking_url m.id with
   | Option.some l => ["Booking: " ++ l]
   | Option.none => [])

/-- The per-booking description list built inside render_calendar's day
loop (it does not depend on the day, so it is built once here): present
fields only, in the source's fixed order, with the Party details section
between extras and property. -/
def descFor (m : EventData) (psec : List String) : List String :=
  (if optStrTruthy m.email then ["Email: " ++ m.email.getD ""] else []) ++
  (if optStrTruthy m.phone then ["Mobile: " ++ m.phone.getD ""] else []) ++
  (match m.party with
   | Option.some n => ["Guests in party: " ++ Int.repr n]
   | Option.none => []) ++
  (if !m.extras.isEmpty then ["Extras: " ++ String.intercalate ", " m.extras] else []) ++
  (if !psec.isEmpty then "Party details" :: psec else []) ++
  (if truthy m.entry_name then ["Property: " ++ pyStr m.entry_name] else []) ++
  (if truthy m.channel then ["Channel: " ++ pyStr m.channel] else []) ++
  (match m.paid with
   | Option.some q =>
       ["Amount paid to us: " ++
         (if optStrTruthy m.currency then m.currency.getD "" ++ " " ++ fmt2 q else fmt2 q)]
   | Option.none => []) ++
  (match booking_url m.id with
   | Option.some l => ["Booking: " ++ l]
   | Option.none => [])

/-- The DESCRIPTION property of app.py _add_event. -/
def descJoin (ls : List String) : String :=
  if ls.isEmpty then "Guest booking" else String.intercalate "\n" ls

/-- One rendered VEVENT: summary, all-day start, exclusive all-day end,
uid, description. -/
structure EventOut where
  summary : String
  dtstart : Int
  dtend : Int
  uid : String
  description : String
  deriving DecidableEq

/-- The kind tag of render_calendar's day loop:
`"IN" if i == 0 else ("OUT" if i == len(days) - 1 else "MID")`. -/
def dayKind (i n : Nat) : String :=
  if i = 0 then "IN" else if i = n - 1 then "OUT" else "MID"

/-- One event added by app.py _add_event from render_calendar's day loop:
one-day span, uid "redroofs-{id}-{kind}-{day}". -/
def mkDayEvent (m : EventData) (code desc kind : String) (day : Int) : EventOut :=
  { summary := title_for_day kind m.guest m.party code,
    dtstart := day,
    dtend := day + 1,
    uid := "redroofs-" ++ pyStr m.id ++ "-" ++ kind ++ "-" ++ isoOfDay day,
    description := desc }

/-- render_calendar's inner day loop: i is the enumerate index, n the
total day count; MID days are skipped when include_mid is false. -/
def eventsLoop (m : EventData) (code desc : String) (include_mid : Bool) (n : Nat) :
    Nat → List Int → List EventOut
  | _, [] => []
  | i, day :: rest =>
      let kind := dayKind i n
      let tail := eventsLoop m code desc include_mid n (i + 1) rest
      if !include_mid && kind == "MID" then tail else mkDayEvent m code desc kind day :: tail

/-- All events render_calendar emits for one mapped booking. -/
def eventsForBooking (m : EventData) (code desc : String) (include_mid : Bool) : List EventOut :=
  let days := expand_stay_days m.arrival m.departure
  eventsLoop m code desc include_mid days.length 0 days

/-- The (kind, day) pairs the day loop walks, in order (the claim-side
description of which events exist and which tag/date each uid is built
from). -/
def kdLoop (include_mid : Bool) (n : Nat) : Nat → List Int → List (String × Int)
  | _, [] => []
  | i, day :: rest =>
      let kind := dayKind i n
      let tail := kdLoop include_mid n (i + 1) rest
      if !include_mid && kind == "MID" then tail else (kind, day) :: tail

def kindDayList (m : EventData) (include_mid : Bool) : List (String × Int) :=
  let days := expand_stay_days m.arrival m.departure
  kdLoop include_mid days.length 0 days

/-- The whole calendar minus serialization: header metadata plus events. -/
structure CalOut where
  prodid : String
  version : String
  calname : Option String
  events : List EventOut
  deriving DecidableEq

/-- The booking loop of app.py render_calendar. -/
def renderLoop (include_mid : Bool) : List Rec → Except PErr (List EventOut)
  | [] => Except.ok []
  | b :: rest =>
      match map_booking_to_event_data b with
      | Except.error e => Except.error e
      | Except.ok Option.none => renderLoop include_mid rest
      | Except.ok (Option.some m) =>
          match prop_code m.entry_id m.entry_name with
          | Except.error e => Except.error e
          | Except.ok code =>
              match parse_party_list m.party_raw m.guest with
              | Except.error e => Except.error e
              | Except.ok psec =>
                  match renderLoop include_mid rest with
                  | Except.error e => Except.error e
                  | Except.ok restEvs =>
                      Except.ok (eventsForBooking m code (descJoin (descFor m psec)) include_mid
                        ++ restEvs)

/-- app.py render_calendar down to the event list (serialization to bytes
is the external icalendar library). -/
def render_calendar (bookings : List Rec) (calendar_name : Option String)
    (include_mid : Bool) : Except PErr CalOut :=
  match renderLoop include_mid bookings with
  | Except.error e => Except.error e
  | Except.ok evs =>
      Except.ok
        { prodid := "-//Redroofs Bookster iCal//EN",
          version := "2.0",
          calname :=
            if optStrTruthy calendar_name then
              Option.some ((calendar_name.getD "") ++ " – Guests")
            else Option.none,
          events := evs }

/-- One extras entry as the extras-filtering claim describes it: a mapping
whose type discriminator equals "extra", with a non-empty trimmed
name-or-title whose lower-cased text contains an allow-list term as a
substring; the display gets an " x qty" suffix exactly when a quantity
field is present and truthy. -/
def extraSpecEntry : PyVal → Option String
  | PyVal.dict d =>
      if pyEqStrB (dget d "type") "extra" then
        match pyOr (pyOr (dget d "name") (dget d "title")) (PyVal.str "") with
        | PyVal.str s0 =>
            let name := strTrim s0
            if name ≠ "" && EXTRA_ALLOWLIST.any (fun key => strIn key (strLower name)) then
              let qty := pyOr (dget d "quantity") (dget d "qty")
              Option.some (if truthy qty then name ++ " x" ++ pyStr qty else name)
            else Option.none
        | _ => Option.none
      else Option.none
  | _ => Option.none

/-- The extras-filtering claim's description of the whole extractor: keep
exactly the matching entries, always applying the allow-list. -/
def extrasSpec (lines : PyVal) : List String :=
  match lines with
  | PyVal.list xs => xs.filterMap extraSpecEntry
  | _ => []

/-- A value on which `(v or "...").strip()/.lower()/.upper()` cannot raise:
a string, or any falsy value. -/
def strLike : PyVal → Bool
  | PyVal.str _ => true
  | v => !truthy v

/-- The name-or-title of a lines entry is safe to strip whenever the entry
is an "extra" mapping. -/
def extrasEntryOK : PyVal → Bool
  | PyVal.dict d =>
      !(pyEqStrB (dget d "type") "extra") ||
        strLike (pyOr (dget d "name") (dget d "title"))
  | _ => true

def linesOK : PyVal → Bool
  | PyVal.list xs => xs.all extrasEntryOK
  | _ => true

/-- Every field the normalizer treats as text is a string or falsy. -/
def strFieldsOKb (b : Rec) : Bool :=
  strLike (dget b "state") && strLike (dget b "customer_forename") &&
  strLike (dget b "customer_surname") && strLike (dget b "customer_email") &&
  phoneKeys.all (fun k => strLike (dget b k)) && strLike (dget b "currency") &&
  linesOK (dget b "lines")

def excOk {α : Type _} : Except PErr α → Bool
  | Except.ok _ => true
  | Except.error _ => false

/-- A confirmed three-night booking, 2024-06-01 to 2024-06-04. -/
def bkSplit : Rec :=
  [("id", PyVal.int 77), ("state", PyVal.str "confirmed"),
   ("start_inclusive", PyVal.pydate (daysFromCivil 2024 6 1)),
   ("end_exclusive", PyVal.pydate (daysFromCivil 2024 6 4))]

/-- A confirmed booking carrying no id field at all. -/
def bkNoId : Rec :=
  [("state", PyVal.str "confirmed"),
   ("start_inclusive", PyVal.pydate (daysFromCivil 2024 6 1)),
   ("end_exclusive", PyVal.pydate (daysFromCivil 2024 6 2)),
   ("customer_forename", PyVal.str "Alice"), ("customer_surname", PyVal.str "Smith")]

/-- A confirmed booking whose resolved departure precedes its arrival. -/
def bkRevDates : Rec :=
  [("state", PyVal.str "confirmed"),
   ("start_inclusive", PyVal.pydate 20), ("end_exclusive", PyVal.pydate 10)]

/-- The mapped record bkRevDates normalizes to. -/
def evRevDates : EventData :=
  { id := PyVal.none, guest := "Guest", arrival := 20, departure := 10,
    email := Option.none, phone := Option.none, party := Option.none,
    party_raw := [], extras := [], value := PyVal.none, balance := PyVal.none,
    paid := Option.none, currency := Option.none, entry_id := PyVal.none,
    entry_name := PyVal.none, channel := PyVal.none }

/-- A confirmed booking with ordered dates. -/
def bkOrd : Rec :=
  [("state", PyVal.str "confirmed"),
   ("start_inclusive", PyVal.pydate 10), ("end_exclusive", PyVal.pydate 20)]

/-- The mapped record bkOrd normalizes to. -/
def evOrd : EventData :=
  { id := PyVal.none, guest := "Guest", arrival := 10, departure := 20,
    email := Option.none, phone := Option.none, party := Option.none,
    party_raw := [], extras := [], value := PyVal.none, balance := PyVal.none,
    paid := Option.none, currency := Option.none, entry_id := PyVal.none,
    entry_name := PyVal.none, channel := PyVal.none }

/-- A plain mapped booking with a three-night stay (used to instantiate
the per-booking rendering theorems). -/
def mWit : EventData :=
  { id := PyVal.int 9, guest := "Ann", arrival := 100, departure := 103,
    email := Option.none, phone := Option.none, party := Option.none,
    party_raw := [], extras := [], value := PyVal.none, balance := PyVal.none,
    paid := Option.none, currency := Option.none, entry_id := PyVal.none,
    entry_name := PyVal.none, channel := PyVal.none }

/-- A mapped booking whose raw party list holds one extra member. -/
def mParty : EventData :=
  { id := PyVal.none, guest := "Alice Smith", arrival := 100, departure := 101,
    email := Option.none, phone := Option.none, party := Option.none,
    party_raw := [PyVal.dict [("forename", PyVal.str "Bob")]],
    extras := [], value := PyVal.none, balance := PyVal.none,
    paid := Option.none, currency := Option.none, entry_id := PyVal.none,
    entry_name := PyVal.none, channel := PyVal.none }

/-- A lines list with a matching qty-0 extra, a matching qty-2 extra and a
non-allow-listed extra. -/
def linesWit : PyVal :=
  PyVal.list
    [PyVal.dict [("type", PyVal.str "extra"), ("name", PyVal.str "Carpet cleaning"),
                 ("quantity", PyVal.int 0)],
     PyVal.dict [("type", PyVal.str "extra"), ("name", PyVal.str "Pets"),
                 ("quantity", PyVal.int 2)],
     PyVal.dict [("type", PyVal.str "extra"), ("name", PyVal.str "Ski hire")]]

/-- A raw record whose text fields are all strings (or absent). -/
def bkText : Rec :=
  [("id", PyVal.int 5), ("state", PyVal.str "Confirmed"),
   ("start_inclusive", PyVal.str "2024-06-01"), ("end_exclusive", PyVal.str "2024-06-04"),
   ("customer_forename", PyVal.str "Alice"), ("customer_surname", PyVal.str "Smith"),
   ("customer_email", PyVal.str "a@example.com"), ("customer_tel_day", PyVal.str "0777"),
   ("party_size", PyVal.str "2"), ("value", PyVal.str "100"), ("balance", PyVal.str "25"),
   ("currency", PyVal.str "gbp"), ("lines", linesWit)]

theorem stayDaysLoop_length (n : Nat) : ∀ a : Int, (stayDaysLoop n a).length = n := by
  induction n with
  | zero => intro a; rfl
  | succ k ih => intro a; simp [stayDaysLoop, ih]

theorem dayKind_first (n : Nat) : dayKind 0 n = "IN" := rfl

theorem dayKind_last (i n : Nat) (h0 : i ≠ 0) (h1 : i = n - 1) : dayKind i n = "OUT" := by
  unfold dayKind
  rw [if_neg h0, if_pos h1]

theorem dayKind_mid (i n : Nat) (h0 : i ≠ 0) (h1 : i ≠ n - 1) : dayKind i n = "MID" := by
  unfold dayKind
  rw [if_neg h0, if_neg h1]

theorem eventsLoop_head_in (m : EventData) (code desc : String) (mid : Bool) (n : Nat)
    (day : Int) (rest : List Int) :
    eventsLoop m code desc mid n 0 (day :: rest) =
      mkDayEvent m code desc "IN" day :: eventsLoop m code desc mid n 1 rest := by
  simp only [eventsLoop, dayKind_first]
  have hc : (!mid && (("IN" : String) == "MID")) = false := by cases mid <;> decide
  rw [hc]
  rfl

theorem eventsLoop_false_last (m : EventData) (code desc : String) (n : Nat) (d : Int) :
    ∀ (xs : List Int) (i : Nat), 1 ≤ i → i + xs.length + 1 = n →
      eventsLoop m code desc false n i (xs ++ [d]) = [mkDayEvent m code desc "OUT" d] := by
  intro xs
  induction xs with
  | nil =>
      intro i h1 h2
      have h2' : i + 1 = n := by simpa using h2
      have hk : dayKind i n = "OUT" := dayKind_last i n (by omega) (by omega)
      simp only [List.nil_append, eventsLoop, hk]
      have hc : (!false && (("OUT" : String) == "MID")) = false := by decide
      rw [hc]
      rfl
  | cons x xs ih =>
      intro i h1 h2
      simp only [List.length_cons] at h2
      have hk : dayKind i n = "MID" := dayKind_mid i n (by omega) (by omega)
      simp only [List.cons_append, eventsLoop, hk]
      have hc : (!false && (("MID" : String) == "MID")) = true := by decide
      rw [hc]
      simp only [if_true]
      exact ih (i + 1) (by omega) (by omega)

theorem eventsLoop_true_last (m : EventData) (code desc : String) (n : Nat) (d : Int) :
    ∀ (xs : List Int) (i : Nat), 1 ≤ i → i + xs.length + 1 = n →
      eventsLoop m code desc true n i (xs ++ [d]) =
        xs.map (mkDayEvent m code desc "MID") ++ [mkDayEvent m code desc "OUT" d] := by
  intro xs
  induction xs with
  | nil =>
      intro i h1 h2
      have h2' : i + 1 = n := by simpa using h2
      have hk : dayKind i n = "OUT" := dayKind_last i n (by omega) (by omega)
      simp only [List.nil_append, eventsLoop, hk, List.map_nil]
      have hc : (!true && (("OUT" : String) == "MID")) = false := by decide
      rw [hc]
      rfl
  | cons x xs ih =>
      intro i h1 h2
      simp only [List.length_cons] at h2
      have hk : dayKind i n = "MID" := dayKind_mid i n (by omega) (by omega)
      simp only [List.cons_append, eventsLoop, hk, List.map_cons]
      have hc : (!true && (("MID" : String) == "MID")) = false := by decide
      rw [hc]
      show mkDayEvent m code desc "MID" x :: eventsLoop m code desc true n (i + 1) (xs ++ [d]) =
        mkDayEvent m code desc "MID" x ::
          (List.map (mkDayEvent m code desc "MID") xs ++ [mkDayEvent m code desc "OUT" d])
      rw [ih (i + 1) (by omega) (by omega)]

/-- C1: render_calendar is a deterministic function of its inputs — two
renders of the same booking list, calendar name and include_mid flag
produce identical UID sequences. -/
theorem uid_determinism_c1 (bookings : List Rec) (calendar_name : Option String)
    (include_mid : Bool) :
    (render_calendar bookings calendar_name include_mid).map
        (fun c => c.events.map (fun e => e.uid)) =
      (render_calendar bookings calendar_name include_mid).map
        (fun c => c.events.map (fun e => e.uid)) := rfl

/-- C4 counterexample: in the include_mid = false mode the booking
2024-06-01 to 2024-06-04 yields TWO one-day events (arrival and checkout
day), not one event spanning the stay with DTEND = 2024-06-04. -/
theorem simple_mode_counterexample_c4 :
    (render_calendar [bkSplit] Option.none false).map
        (fun c => c.events.map (fun e => (e.dtstart, e.dtend))) =
      Except.ok
        [(daysFromCivil 2024 6 1, daysFromCivil 2024 6 2),
         (daysFromCivil 2024 6 4, daysFromCivil 2024 6 5)] ∧
    (render_calendar [bkSplit] Option.none false).map (fun c => c.events.length) =
      Except.ok 2 ∧
    (2 : Nat) ≠ 1 := ⟨rfl, rfl, by decide⟩

/-- C4 (amended): with include_mid = false the renderer emits, per
booking, exactly the one-day IN event on the arrival date and the one-day
0UT event on the departure date (each with exclusive end the following
day); no single event spanning the whole stay exists. -/
theorem inout_mode_events_c4 (m : EventData) (code desc : String)
    (h : m.arrival < m.departure) :
    eventsForBooking m code desc false =
      [mkDayEvent m code desc "IN" m.arrival,
       mkDayEvent m code desc "OUT" m.departure] := by
  unfold eventsForBooking expand_stay_days
  obtain ⟨k, hk⟩ : ∃ k, (m.departure - m.arrival).toNat = k + 1 :=
    ⟨(m.departure - m.arrival).toNat - 1, by omega⟩
  rw [hk]
  simp only [stayDaysLoop, List.cons_append]
  rw [eventsLoop_head_in]
  rw [eventsLoop_false_last m code desc _ m.departure (stayDaysLoop k (m.arrival + 1)) 1
    (by omega) (by simp [stayDaysLoop_length]; omega)]

/-- C4 witness: the amended statement at a concrete three-night booking. -/
theorem inout_mode_events_c4_witness :
    mWit.arrival < mWit.departure ∧
      eventsForBooking mWit "RR" "D" false =
        [mkDayEvent mWit "RR" "D" "IN" mWit.arrival,
         mkDayEvent mWit "RR" "D" "OUT" mWit.departure] :=
  ⟨by decide, inout_mode_events_c4 mWit "RR" "D" (by decide)⟩

/-- C5 counterexample: the booking 2024-06-01 to 2024-06-04 in split mode
(include_mid = true) emits FOUR day-events, not three. -/
theorem split_day_count_counterexample_c5 :
    (render_calendar [bkSplit] Option.none true).map (fun c => c.events.length) =
      Except.ok 4 ∧
    (Except.ok 4 : Except PErr Nat) ≠ Except.ok 3 :=
  ⟨rfl, fun hcon => absurd (Except.ok.inj hcon) (by decide)⟩

/-- C5 (amended): the booking 2024-06-01 to 2024-06-04 in split mode emits
exactly 4 one-day events: 06-01 tagged IN, 06-02 and 06-03 tagged MID, and
06-04 tagged OUT. -/
theorem split_day_events_c5 :
    (render_calendar [bkSplit] Option.none true).map
        (fun c => c.events.map (fun e => (e.dtstart, e.dtend, e.uid))) =
      Except.ok
        [(daysFromCivil 2024 6 1, daysFromCivil 2024 6 2, "redroofs-77-IN-2024-06-01"),
         (daysFromCivil 2024 6 2, daysFromCivil 2024 6 3, "redroofs-77-MID-2024-06-02"),
         (daysFromCivil 2024 6 3, daysFromCivil 2024 6 4, "redroofs-77-MID-2024-06-03"),
         (daysFromCivil 2024 6 4, daysFromCivil 2024 6 5, "redroofs-77-OUT-2024-06-04")] := rfl

/-- C6 counterexample: with an unknown party size the arrival-day title
carries NO guest-count suffix (no "x1"), and the departure-day title is
prefixed "0UT: " (digit zero), so the substring "OUT" never appears. -/
theorem split_titles_counterexample_c6 :
    title_for_day "IN" "Ann" Option.none "RR" = "IN: Ann (RR)" ∧
    strIn "x1" (title_for_day "IN" "Ann" Option.none "RR") = false ∧
    title_for_day "OUT" "Ann" Option.none "RR" = "0UT: Ann (RR)" ∧
    strIn "OUT" (title_for_day "OUT" "Ann" Option.none "RR") = false :=
  ⟨rfl, rfl, rfl, rfl⟩

/-- C6 (amended): the arrival-day title is "IN: guest (code)" with an
" xN" suffix only when the party size is known (none when unknown); the
departure date is rendered as its own one-day event, from departure to
departure + 1 day, titled with the prefix "0UT: " (digit zero). -/
theorem split_titles_c6 :
    (∀ guest code, title_for_day "IN" guest Option.none code =
        "IN: " ++ guest ++ " (" ++ code ++ ")") ∧
    (∀ guest code (n : Int), title_for_day "IN" guest (Option.some n) code =
        "IN: " ++ guest ++ " x" ++ Int.repr n ++ " (" ++ code ++ ")") ∧
    (∀ guest party code, title_for_day "OUT" guest party code =
        "0UT: " ++ guest ++ " (" ++ code ++ ")") ∧
    (∀ (m : EventData) (code desc : String), m.arrival < m.departure →
        eventsForBooking m code desc true =
          mkDayEvent m code desc "IN" m.arrival ::
            ((stayDaysLoop (m.departure - (m.arrival + 1)).toNat (m.arrival + 1)).map
                (mkDayEvent m code desc "MID") ++
              [mkDayEvent m code desc "OUT" m.departure])) := by
  refine ⟨?_, ?_, ?_, ?_⟩
  · intro guest code
    unfold title_for_day
    rw [if_pos rfl]
    simp [String.append_assoc]
  · intro guest code n
    simp [title_for_day, String.append_assoc]
  · intro guest party code
    unfold title_for_day
    rw [if_neg (by decide), if_pos rfl]
  · intro m code desc h
    unfold eventsForBooking expand_stay_days
    obtain ⟨k, hk⟩ : ∃ k, (m.departure - m.arrival).toNat = k + 1 :=
      ⟨(m.departure - m.arrival).toNat - 1, by omega⟩
    have hk2 : (m.departure - (m.arrival + 1)).toNat = k := by omega
    rw [hk, hk2]
    simp only [stayDaysLoop, List.cons_append]
    rw [eventsLoop_head_in]
    rw [eventsLoop_true_last m code desc _ m.departure (stayDaysLoop k (m.arrival + 1)) 1
      (by omega) (by simp [stayDaysLoop_length]; omega)]

/-- C6 witness: the amended statement at concrete inputs. -/
theorem split_titles_c6_witness :
    title_for_day "IN" "Ann" Option.none "RR" = "IN: Ann (RR)" ∧
    title_for_day "IN" "Ann" (Option.some 2) "RR" = "IN: Ann x2 (RR)" ∧
    title_for_day "OUT" "Ann" Option.none "RR" = "0UT: Ann (RR)" ∧
    mWit.arrival < mWit.departure ∧
    eventsForBooking mWit "RR" "D" true =
      mkDayEvent mWit "RR" "D" "IN" mWit.arrival ::
        ((stayDaysLoop (mWit.departure - (mWit.arrival + 1)).toNat (mWit.arrival + 1)).map
            (mkDayEvent mWit "RR" "D" "MID") ++
          [mkDayEvent mWit "RR" "D" "OUT" mWit.departure]) :=
  ⟨split_titles_c6.1 "Ann" "RR", split_titles_c6.2.1 "Ann" "RR" 2,
   split_titles_c6.2.2.1 "Ann" Option.none "RR", by decide,
   split_titles_c6.2.2.2 mWit "RR" "D" (by decide)⟩

theorem dayKind_cases (i n : Nat) :
    (dayKind i n == "IN" || dayKind i n == "MID" || dayKind i n == "OUT") = true := by
  unfold dayKind
  split_ifs <;> decide

theorem eventsLoop_uid_map (m : EventData) (code desc : String) (mid : Bool) (n : Nat) :
    ∀ (xs : List Int) (i : Nat),
      (eventsLoop m code desc mid n i xs).map (fun e => (e.uid, e.dtstart)) =
        (kdLoop mid n i xs).map
          (fun kd => ("redroofs-" ++ pyStr m.id ++ "-" ++ kd.1 ++ "-" ++ isoOfDay kd.2, kd.2)) := by
  intro xs
  induction xs with
  | nil => intro i; rfl
  | cons day rest ih =>
      intro i
      simp only [eventsLoop, kdLoop]
      by_cases hc : (!mid && (dayKind i n == "MID")) = true
      · simp only [hc, if_true]
        exact ih (i + 1)
      · simp only [eq_false_of_ne_true hc, Bool.false_eq_true, if_false, List.map_cons]
        rw [ih (i + 1)]
        rfl

theorem kdLoop_kinds (mid : Bool) (n : Nat) :
    ∀ (xs : List Int) (i : Nat),
      (kdLoop mid n i xs).all
        (fun kd => kd.1 == "IN" || kd.1 == "MID" || kd.1 == "OUT") = true := by
  intro xs
  induction xs with
  | nil => intro i; rfl
  | cons day rest ih =>
      intro i
      simp only [kdLoop]
      by_cases hc : (!mid && (dayKind i n == "MID")) = true
      · simp only [hc, if_true]
        exact ih (i + 1)
      · simp only [eq_false_of_ne_true hc, Bool.false_eq_true, if_false, List.all_cons]
        rw [ih (i + 1)]
        simpa using dayKind_cases i n

/-- C2 counterexample: a confirmed booking with no reference identifier
(no id field) and guest "Alice Smith" gets the UIDs
redroofs-None-IN-2024-06-01 and redroofs-None-OUT-2024-06-02 — the
literal text None where the id would be — and no part of the guest name
appears anywhere in either UID. -/
theorem uid_guest_fallback_counterexample_c2 :
    (render_calendar [bkNoId] Option.none true).map
        (fun c => c.events.map (fun e => e.uid)) =
      Except.ok ["redroofs-None-IN-2024-06-01", "redroofs-None-OUT-2024-06-02"] ∧
    strIn "Alice" "redroofs-None-IN-2024-06-01" = false ∧
    strIn "Smith" "redroofs-None-IN-2024-06-01" = false ∧
    strIn "Alice" "redroofs-None-OUT-2024-06-02" = false ∧
    strIn "Smith" "redroofs-None-OUT-2024-06-02" = false :=
  ⟨rfl, rfl, rfl, rfl, rfl⟩

/-- C2 (amended): every event's UID is exactly
"redroofs-" ++ str(id) ++ "-" ++ kind ++ "-" ++ ISO-date, where id is the
raw id field (rendered as the literal None when absent — the guest name is
never used), the kind tag is always one of IN/MID/OUT in both modes, and
the date is the event's own start date. -/
theorem uid_composition_c2 (m : EventData) (code desc : String) (include_mid : Bool) :
    (eventsForBooking m code desc include_mid).map (fun e => (e.uid, e.dtstart)) =
      (kindDayList m include_mid).map
        (fun kd => ("redroofs-" ++ pyStr m.id ++ "-" ++ kd.1 ++ "-" ++ isoOfDay kd.2, kd.2)) ∧
    (kindDayList m include_mid).all
      (fun kd => kd.1 == "IN" || kd.1 == "MID" || kd.1 == "OUT") = true :=
  ⟨eventsLoop_uid_map m code desc include_mid _ _ 0,
   kdLoop_kinds include_mid _ _ 0⟩

/-- C3 counterexample: with value 1/2147483648 (an exactly representable
float below the 1e-9 threshold) and balance 0, _amount_paid returns 0,
but max(0, value - balance) is 1/2147483648, not 0. -/
theorem amount_paid_exact_counterexample_c3 :
    amount_paid (PyVal.float (1 / 2147483648)) (PyVal.int 0) = Option.some 0 ∧
      pyMax 0 ((1 / 2147483648 : ℚ) - 0) ≠ 0 := by
  constructor
  · unfold amount_paid
    simp only [pyFloat]
    have h3 : pyAbs ((1 / 2147483648 : ℚ) - ((0 : Int) : ℚ)) < 1 / 1000000000 := by
      unfold pyAbs
      rw [if_neg (by norm_num)]
      norm_num
    rw [if_pos h3]
    norm_num [pyMax]
  · unfold pyMax
    rw [if_pos (by norm_num)]
    norm_num

/-- C3 (amended): when both inputs parse as numbers the amount paid is
max(0, value - balance) except that a difference of magnitude below 1e-9
is first snapped to exactly 0; when either input is absent or unparseable
the amount is absent; the result is never negative. -/
theorem amount_paid_clamping_c3 (value balance : PyVal) :
    (∀ v bal : ℚ, pyFloat value = Option.some v → pyFloat balance = Option.some bal →
        amount_paid value balance =
          Option.some (pyMax 0 (if pyAbs (v - bal) < 1 / 1000000000 then 0 else v - bal))) ∧
    ((pyFloat value = Option.none ∨ pyFloat balance = Option.none) →
        amount_paid value balance = Option.none) ∧
    (∀ q : ℚ, amount_paid value balance = Option.some q → 0 ≤ q) := by
  refine ⟨?_, ?_, ?_⟩
  · intro v bal hv hb
    unfold amount_paid
    rw [hv, hb]
  · intro h
    rcases h with h | h
    · unfold amount_paid
      rw [h]
    · unfold amount_paid
      rw [h]
      cases pyFloat value <;> rfl
  · intro q hq
    unfold amount_paid at hq
    cases hv : pyFloat value with
    | none => rw [hv] at hq; simp at hq
    | some v =>
        cases hb : pyFloat balance with
        | none => rw [hv, hb] at hq; simp at hq
        | some bal =>
            rw [hv, hb] at hq
            simp only [Option.some.injEq] at hq
            rw [← hq]
            unfold pyMax
            split <;> split
            · next hlt => exact le_of_lt hlt
            · exact le_refl (0 : ℚ)
            · next hlt => exact le_of_lt hlt
            · exact le_refl (0 : ℚ)

/-- C3 witness: the amended statement at value 25/2 and balance 3 (both
parse, so the amount is max(0, 25/2 - 3) with the 1e-9 snap, i.e. 9.5). -/
theorem amount_paid_clamping_c3_witness :
    pyFloat (PyVal.float ((25 : ℚ) / 2)) = Option.some ((25 : ℚ) / 2) ∧
    pyFloat (PyVal.int 3) = Option.some ((3 : Int) : ℚ) ∧
    amount_paid (PyVal.float ((25 : ℚ) / 2)) (PyVal.int 3) =
      Option.some (pyMax 0
        (if pyAbs ((25 : ℚ) / 2 - ((3 : Int) : ℚ)) < 1 / 1000000000 then 0
         else (25 : ℚ) / 2 - ((3 : Int) : ℚ))) :=
  ⟨rfl, rfl,
   (amount_paid_clamping_c3 (PyVal.float ((25 : ℚ) / 2)) (PyVal.int 3)).1 _ _ rfl rfl⟩

theorem pyOr_strLike (v : PyVal) (h : strLike v = true) :
    ∃ s, pyOr v (PyVal.str "") = PyVal.str s := by
  cases v with
  | str s =>
      unfold pyOr
      by_cases hs : truthy (PyVal.str s) = true
      · exact ⟨s, if_pos hs⟩
      · exact ⟨"", if_neg (by simpa using hs)⟩
  | none => exact ⟨"", rfl⟩
  | int n =>
      simp only [strLike, Bool.not_eq_true'] at h
      exact ⟨"", by unfold pyOr; rw [h]; rfl⟩
  | float q =>
      simp only [strLike, Bool.not_eq_true'] at h
      exact ⟨"", by unfold pyOr; rw [h]; rfl⟩
  | pydate d => simp [strLike, truthy] at h
  | pydatetime d => simp [strLike, truthy] at h
  | list xs =>
      simp only [strLike, Bool.not_eq_true'] at h
      exact ⟨"", by unfold pyOr; rw [h]; rfl⟩
  | dict d =>
      simp only [strLike, Bool.not_eq_true'] at h
      exact ⟨"", by unfold pyOr; rw [h]; rfl⟩

theorem stripOrE_ok (v : PyVal) (h : strLike v = true) : ∃ s, stripOrE v = Except.ok s := by
  obtain ⟨s, hs⟩ := pyOr_strLike v h
  exact ⟨strTrim s, by unfold stripOrE; rw [hs]⟩

theorem lowerOrE_ok (v : PyVal) (h : strLike v = true) : ∃ s, lowerOrE v = Except.ok s := by
  obtain ⟨s, hs⟩ := pyOr_strLike v h
  exact ⟨strLower s, by unfold lowerOrE; rw [hs]⟩

theorem upperOrE_ok (v : PyVal) (h : strLike v = true) : ∃ s, upperOrE v = Except.ok s := by
  obtain ⟨s, hs⟩ := pyOr_strLike v h
  exact ⟨strUpper s, by unfold upperOrE; rw [hs]⟩

theorem bestPhoneGo_ok (b : Rec) :
    ∀ ks : List String, (∀ k ∈ ks, strLike (dget b k) = true) →
      ∃ r, bestPhoneGo b ks = Except.ok r := by
  intro ks
  induction ks with
  | nil => intro _; exact ⟨Option.none, rfl⟩
  | cons k ks ih =>
      intro h
      obtain ⟨s, hs⟩ := stripOrE_ok (dget b k) (h k (by simp))
      obtain ⟨r, hr⟩ := ih (fun k2 hk2 => h k2 (by simp [hk2]))
      refine ⟨if s ≠ "" then Option.some s else r, ?_⟩
      unfold bestPhoneGo
      rw [hs]
      show (if s ≠ "" then Except.ok (Option.some s) else bestPhoneGo b ks) =
        Except.ok (if s ≠ "" then Option.some s else r)
      by_cases hne : s ≠ ""
      · rw [if_pos hne, if_pos hne]
      · rw [if_neg hne, if_neg hne]
        exact hr

theorem filterExtrasGo_ok :
    ∀ xs : List PyVal, (∀ ln ∈ xs, extrasEntryOK ln = true) →
      ∃ r, filterExtrasGo xs = Except.ok r := by
  intro xs
  induction xs with
  | nil => intro _; exact ⟨[], rfl⟩
  | cons ln rest ih =>
      intro h
      obtain ⟨r, hr⟩ := ih (fun x hx => h x (by simp [hx]))
      have hln := h ln (by simp)
      cases ln with
      | dict d =>
          unfold filterExtrasGo
          dsimp only
          by_cases ht : pyEqStrB (dget d "type") "extra" = true
          · simp only [extrasEntryOK, ht, Bool.not_true, Bool.false_or] at hln
            obtain ⟨s, hs⟩ := stripOrE_ok _ hln
            rw [if_pos ht, hs, hr]
            dsimp only
            split
            · exact ⟨r, rfl⟩
            · split
              · exact ⟨_, rfl⟩
              · exact ⟨r, rfl⟩
          · rw [if_neg ht]
            exact ⟨r, hr⟩
      | none => exact ⟨r, hr⟩
      | str s => exact ⟨r, hr⟩
      | int n => exact ⟨r, hr⟩
      | float q => exact ⟨r, hr⟩
      | pydate dd => exact ⟨r, hr⟩
      | pydatetime dd => exact ⟨r, hr⟩
      | list l => exact ⟨r, hr⟩

theorem filter_extras_ok (lines : PyVal) (h : linesOK lines = true) :
    ∃ r, filter_extras lines = Except.ok r := by
  cases lines with
  | list xs =>
      apply filterExtrasGo_ok
      simpa only [linesOK, List.all_eq_true] using h
  | none => exact ⟨[], rfl⟩
  | str s => exact ⟨[], rfl⟩
  | int n => exact ⟨[], rfl⟩
  | float q => exact ⟨[], rfl⟩
  | pydate d => exact ⟨[], rfl⟩
  | pydatetime d => exact ⟨[], rfl⟩
  | dict d => exact ⟨[], rfl⟩

theorem textFields_ok (b : Rec)
    (h1 : strLike (dget b "customer_forename") = true)
    (h2 : strLike (dget b "customer_surname") = true)
    (h3 : strLike (dget b "customer_email") = true)
    (h4 : ∀ k ∈ phoneKeys, strLike (dget b k) = true)
    (h5 : linesOK (dget b "lines") = true)
    (h6 : strLike (dget b "currency") = true) :
    ∃ t, textFields b = Except.ok t := by
  obtain ⟨s1, e1⟩ := stripOrE_ok _ h1
  obtain ⟨s2, e2⟩ := stripOrE_ok _ h2
  obtain ⟨s3, e3⟩ := stripOrE_ok _ h3
  obtain ⟨p, e4⟩ := bestPhoneGo_ok b phoneKeys h4
  have e4' : best_phone b = Except.ok p := e4
  obtain ⟨x, e5⟩ := filter_extras_ok (dget b "lines") h5
  obtain ⟨s6, e6⟩ := upperOrE_ok _ h6
  refine ⟨(s1, s2, s3, p, x, s6), ?_⟩
  unfold textFields
  rw [e1, e2, e3, e4', e5, e6]

/-- C7 counterexample: a record whose state field is the integer 5 (a
truthy non-string) makes normalization raise AttributeError instead of
returning a record or absent. -/
theorem normalize_raises_counterexample_c7 :
    map_booking_to_event_data [("state", PyVal.int 5)] = Except.error PErr.attributeError := rfl

/-- C7 (amended): normalization never raises and returns a mapped record
or absent, PROVIDED every field it reads as text (state, forename,
surname, email, the phone candidates, currency, and the name/title of
each "extra" line) is a string or falsy; a truthy non-string in one of
those fields raises AttributeError instead of being dropped. -/
theorem normalize_fail_soft_c7 (b : Rec) (h : strFieldsOKb b = true) :
    excOk (map_booking_to_event_data b) = true := by
  simp only [strFieldsOKb, Bool.and_eq_true, List.all_eq_true] at h
  obtain ⟨⟨⟨⟨⟨⟨hstate, hfore⟩, hsur⟩, hemail⟩, hphone⟩, hcur⟩, hlines⟩ := h
  obtain ⟨st, hst⟩ := lowerOrE_ok _ hstate
  obtain ⟨t, htf⟩ := textFields_ok b hfore hsur hemail hphone hlines hcur
  obtain ⟨f1, f2, f3, f4, f5, f6⟩ := t
  unfold map_booking_to_event_data
  rw [hst]
  dsimp only
  by_cases hc : st ≠ "confirmed"
  · rw [if_pos hc]
    rfl
  · rw [if_neg hc]
    cases to_date (dget b "start_inclusive") with
    | none => rfl
    | some a =>
        cases to_date (dget b "end_exclusive") with
        | none => rfl
        | some dep =>
            rw [htf]
            rfl

/-- C7 witness: the amended statement at a concrete all-string record. -/
theorem normalize_fail_soft_c7_witness :
    strFieldsOKb bkText = true ∧ excOk (map_booking_to_event_data bkText) = true :=
  ⟨rfl, normalize_fail_soft_c7 bkText rfl⟩

/-- C8 counterexample: a confirmed record whose resolved departure (day
10) precedes its resolved arrival (day 20) still normalizes to a booking,
with departure earlier than arrival — the normalizer enforces no order. -/
theorem date_order_counterexample_c8 :
    map_booking_to_event_data bkRevDates = Except.ok (Option.some evRevDates) ∧
      ¬ evRevDates.arrival < evRevDates.departure := ⟨rfl, by decide⟩

/-- C8 (amended): the normalizer only requires that both dates resolve;
it copies the resolved arrival and departure into the booking unchanged
and never compares them, so departure is strictly later than arrival only
when the input's resolved dates already are. -/
theorem date_passthrough_c8 (b : Rec) (r : EventData)
    (h : map_booking_to_event_data b = Except.ok (Option.some r)) :
    to_date (dget b "start_inclusive") = Option.some r.arrival ∧
      to_date (dget b "end_exclusive") = Option.some r.departure := by
  unfold map_booking_to_event_data at h
  cases hst : lowerOrE (dget b "state") with
  | error e => rw [hst] at h; cases h
  | ok st =>
      rw [hst] at h
      dsimp only at h
      by_cases hc : st ≠ "confirmed"
      · rw [if_pos hc] at h; cases h
      · rw [if_neg hc] at h
        cases hd1 : to_date (dget b "start_inclusive") with
        | none => rw [hd1] at h; cases hd2 : to_date (dget b "end_exclusive") <;> rw [hd2] at h <;> simp at h
        | some arrival =>
            rw [hd1] at h
            cases hd2 : to_date (dget b "end_exclusive") with
            | none => rw [hd2] at h; simp at h
            | some dep =>
                rw [hd2] at h
                cases htf : textFields b with
                | error e => rw [htf] at h; cases h
                | ok t =>
                    obtain ⟨f1, f2, f3, f4, f5, f6⟩ := t
                    rw [htf] at h
                    simp only [Except.ok.injEq, Option.some.injEq] at h
                    subst h
                    exact ⟨rfl, rfl⟩

/-- C8 witness: the amended statement at a concrete ordered record. -/
theorem date_passthrough_c8_witness :
    map_booking_to_event_data bkOrd = Except.ok (Option.some evOrd) ∧
      (to_date (dget bkOrd "start_inclusive") = Option.some evOrd.arrival ∧
        to_date (dget bkOrd "end_exclusive") = Option.some evOrd.departure) :=
  ⟨rfl, date_passthrough_c8 bkOrd evOrd rfl⟩

theorem stripOrE_inv (v : PyVal) (name : String) (h : stripOrE v = Except.ok name) :
    ∃ s0, pyOr v (PyVal.str "") = PyVal.str s0 ∧ name = strTrim s0 := by
  unfold stripOrE at h
  cases hv : pyOr v (PyVal.str "") with
  | str s0 =>
      rw [hv] at h
      dsimp only at h
      exact ⟨s0, rfl, (Except.ok.inj h).symm⟩
  | none => rw [hv] at h; cases h
  | int n => rw [hv] at h; cases h
  | float q => rw [hv] at h; cases h
  | pydate d => rw [hv] at h; cases h
  | pydatetime d => rw [hv] at h; cases h
  | list xs => rw [hv] at h; cases h
  | dict d => rw [hv] at h; cases h

theorem filterExtrasGo_spec :
    ∀ (xs : List PyVal) (res : List String), filterExtrasGo xs = Except.ok res →
      res = xs.filterMap extraSpecEntry := by
  intro xs
  induction xs with
  | nil =>
      intro res h
      simpa using (Except.ok.inj h).symm
  | cons ln rest ih =>
      intro res h
      rw [List.filterMap_cons]
      cases ln with
      | dict d =>
          unfold filterExtrasGo at h
          dsimp only at h
          by_cases ht : pyEqStrB (dget d "type") "extra" = true
          · rw [if_pos ht] at h
            cases hs : stripOrE (pyOr (dget d "name") (dget d "title")) with
            | error e => rw [hs] at h; cases h
            | ok name =>
                rw [hs] at h
                dsimp only at h
                obtain ⟨s0, hv, hname⟩ := stripOrE_inv _ name hs
                subst hname
                have hspec : extraSpecEntry (PyVal.dict d) =
                    (if strTrim s0 ≠ "" &&
                        EXTRA_ALLOWLIST.any (fun key => strIn key (strLower (strTrim s0))) then
                      Option.some
                        (if truthy (pyOr (dget d "quantity") (dget d "qty")) then
                          strTrim s0 ++ " x" ++ pyStr (pyOr (dget d "quantity") (dget d "qty"))
                        else strTrim s0)
                    else Option.none) := by
                  unfold extraSpecEntry
                  dsimp only
                  rw [if_pos ht, hv]
                rw [hspec]
                by_cases h1 : strTrim s0 = ""
                · rw [if_pos h1] at h
                  rw [if_neg (by simp [h1])]
                  exact ih res h
                · rw [if_neg h1] at h
                  by_cases h2 :
                      (EXTRA_ALLOWLIST.any (fun key => strIn key (strLower (strTrim s0)))) = true
                  · rw [if_pos h2] at h
                    cases hrest : filterExtrasGo rest with
                    | error e => rw [hrest] at h; cases h
                    | ok r =>
                        rw [hrest] at h
                        dsimp only at h
                        have hres := (Except.ok.inj h).symm
                        rw [if_pos (by simp [h1, h2])]
                        rw [hres, ih r hrest]
                  · rw [if_neg h2] at h
                    rw [if_neg (by simp [h2])]
                    exact ih res h
          · rw [if_neg ht] at h
            have hspec : extraSpecEntry (PyVal.dict d) = Option.none := by
              unfold extraSpecEntry
              dsimp only
              rw [if_neg ht]
            rw [hspec]
            exact ih res h
      | none => exact ih res h
      | str s => exact ih res h
      | int n => exact ih res h
      | float q => exact ih res h
      | pydate dd => exact ih res h
      | pydatetime dd => exact ih res h
      | list l => exact ih res h

/-- C9: the extras extractor keeps exactly the lines entries that are
mappings with type "extra" and a non-empty trimmed name (or title) whose
lower-cased text contains an allow-list term as a substring (so "Carpet
cleaning" matches via "pet"), appending " x qty" only when a quantity
field is truthy (qty 0 gives no suffix); the allow-list is always
applied. -/
theorem extras_filter_c9 (lines : PyVal) (res : List String)
    (h : filter_extras lines = Except.ok res) : res = extrasSpec lines := by
  cases lines with
  | list xs => exact filterExtrasGo_spec xs res h
  | none => exact (Except.ok.inj h).symm
  | str s => exact (Except.ok.inj h).symm
  | int n => exact (Except.ok.inj h).symm
  | float q => exact (Except.ok.inj h).symm
  | pydate d => exact (Except.ok.inj h).symm
  | pydatetime d => exact (Except.ok.inj h).symm
  | dict d => exact (Except.ok.inj h).symm

/-- C9 witness: on a list with a qty-0 "Carpet cleaning" extra (matched by
the substring "pet", no suffix), a qty-2 "Pets" extra (suffix " x2") and a
non-allow-listed "Ski hire" extra (dropped), the extractor returns exactly
the described entries. -/
theorem extras_filter_c9_witness :
    filter_extras linesWit = Except.ok ["Carpet cleaning", "Pets x2"] ∧
      ["Carpet cleaning", "Pets x2"] = extrasSpec linesWit :=
  ⟨rfl, extras_filter_c9 linesWit ["Carpet cleaning", "Pets x2"] rfl⟩

theorem goFindLead_leadMatch (lead : String) :
    ∀ (l : List PartyEntry) (x : PartyEntry × List PartyEntry),
      goFindLead lead l = Option.some x → leadMatch lead x.1 = true := by
  intro l
  induction l with
  | nil => intro x hx; cases hx
  | cons t ts ih =>
      intro x hx
      unfold goFindLead at hx
      by_cases hm : leadMatch lead t = true
      · rw [if_pos hm] at hx
        cases hx
        exact hm
      · rw [if_neg hm] at hx
        cases hg : goFindLead lead ts with
        | none => rw [hg] at hx; cases hx
        | some y =>
            rw [hg] at hx
            dsimp only at hx
            cases hx
            exact ih y hg

theorem goFindLead_any (lead : String) :
    ∀ (l : List PartyEntry) (x : PartyEntry × List PartyEntry),
      goFindLead lead l = Option.some x →
      ∀ p : PartyEntry → Bool, (p x.1 || x.2.any p) = l.any p := by
  intro l
  induction l with
  | nil => intro x hx; cases hx
  | cons t ts ih =>
      intro x hx p
      unfold goFindLead at hx
      by_cases hm : leadMatch lead t = true
      · rw [if_pos hm] at hx
        cases hx
        simp [List.any_cons]
      · rw [if_neg hm] at hx
        cases hg : goFindLead lead ts with
        | none => rw [hg] at hx; cases hx
        | some y =>
            rw [hg] at hx
            dsimp only at hx
            cases hx
            simp only [List.any_cons]
            rw [← ih y hg p, Bool.or_left_comm]

theorem meaningfulOther_self (lead : String) :
    meaningfulOther lead (⟨lead, Option.none, Option.none⟩ : PartyEntry) = false := by
  simp [meaningfulOther, entryInfoB, optStrTruthy, optIntTruthy]

theorem leadRearrange_any (lead : String) (raw : List PartyEntry) :
    (leadRearrange lead raw).any (meaningfulOther lead) =
      raw.any (meaningfulOther lead) := by
  unfold leadRearrange
  cases hg : goFindLead lead raw with
  | none =>
      dsimp only
      simp [List.any_cons, meaningfulOther_self]
  | some x =>
      dsimp only
      exact goFindLead_any lead raw x hg (meaningfulOther lead)

theorem leadRearrange_shape (lead : String) (raw : List PartyEntry) :
    ∃ hd tl, leadRearrange lead raw = hd :: tl ∧
      (hd = (⟨lead, Option.none, Option.none⟩ : PartyEntry) ∨ leadMatch lead hd = true) := by
  unfold leadRearrange
  cases hg : goFindLead lead raw with
  | none => exact ⟨_, _, rfl, Or.inl rfl⟩
  | some x => exact ⟨x.1, x.2, rfl, Or.inr (goFindLead_leadMatch lead raw x hg)⟩

theorem numberLines_guest_shape :
    ∀ (l : List PartyEntry) (i : Nat) (s : String),
      s ∈ numberLines i l → ∃ t, s = "Guest " ++ t := by
  intro l
  induction l with
  | nil => intro i s hs; cases hs
  | cons e rest ih =>
      intro i s hs
      cases hs with
      | head =>
          unfold entryLine
          dsimp only
          split
          · exact ⟨_, rfl⟩
          · exact ⟨_, rfl⟩
      | tail _ hmem => exact ih (i + 1) s hmem

theorem descFor_split (m : EventData) (psec : List String) :
    descFor m psec =
      descBeforeParty m ++ (if psec.isEmpty then [] else "Party details" :: psec) ++
        descAfterParty m := by
  cases psec with
  | nil => simp [descFor, descBeforeParty, descAfterParty, List.append_assoc]
  | cons a l => simp [descFor, descBeforeParty, descAfterParty, List.append_assoc]

/-- C10: the event description carries a "Party details" section (lines of
the form "Guest N: ...", with the lead guest's entry first) between the
extras line(s) and the property line exactly when the processed raw party
list holds an entry with some information whose name differs
(case-insensitively) from the lead guest's; otherwise no section appears. -/
theorem party_details_c10 (m : EventData) (entries : List PartyEntry) (psec : List String)
    (h0 : processParty m.party_raw = Except.ok entries)
    (h : parse_party_list m.party_raw m.guest = Except.ok psec) :
    (descFor m psec =
      descBeforeParty m ++ (if psec.isEmpty then [] else "Party details" :: psec) ++
        descAfterParty m) ∧
    (psec ≠ [] ↔ entries.any (meaningfulOther m.guest) = true) ∧
    (∀ s ∈ psec, ∃ t, s = "Guest " ++ t) ∧
    (psec ≠ [] → ∃ hd tl, psec = entryLine 1 hd :: numberLines 2 tl ∧
        (hd.nm = m.guest ∨ leadMatch m.guest hd = true)) := by
  unfold parse_party_list at h
  rw [h0] at h
  dsimp only at h
  have hany :
      (leadRearrange m.guest
          (if entries.isEmpty then [(⟨m.guest, Option.none, Option.none⟩ : PartyEntry)]
           else entries)).any (meaningfulOther m.guest) =
        entries.any (meaningfulOther m.guest) := by
    rw [leadRearrange_any]
    by_cases he : entries.isEmpty = true
    · have he' : entries = [] := by simpa using he
      rw [if_pos he, he']
      simp [List.any_cons, meaningfulOther_self]
    · rw [if_neg he]
  by_cases hmean :
      (leadRearrange m.guest
          (if entries.isEmpty then [(⟨m.guest, Option.none, Option.none⟩ : PartyEntry)]
           else entries)).any (meaningfulOther m.guest) = true
  · rw [if_pos hmean] at h
    have hpsec := (Except.ok.inj h).symm
    obtain ⟨hd, tl, hshape, hlead⟩ :=
      leadRearrange_shape m.guest
        (if entries.isEmpty then [(⟨m.guest, Option.none, Option.none⟩ : PartyEntry)]
         else entries)
    rw [hshape] at hpsec
    have hpsec' : psec = entryLine 1 hd :: numberLines 2 tl := hpsec
    refine ⟨descFor_split m psec, ?_, ?_, ?_⟩
    · constructor
      · intro _
        rw [← hany]
        exact hmean
      · intro _
        rw [hpsec']
        exact List.cons_ne_nil _ _
    · intro s hs
      rw [hpsec'] at hs
      exact numberLines_guest_shape (hd :: tl) 1 s hs
    · intro _
      refine ⟨hd, tl, hpsec', ?_⟩
      cases hlead with
      | inl he => exact Or.inl (by rw [he])
      | inr hm => exact Or.inr hm
  · rw [if_neg hmean] at h
    have hpsec : psec = [] := (Except.ok.inj h).symm
    subst hpsec
    refine ⟨descFor_split m [], ?_, ?_, ?_⟩
    · constructor
      · intro hne
        exact absurd rfl hne
      · intro htrue
        rw [← hany] at htrue
        exact absurd htrue hmean
    · intro s hs
      cases hs
    · intro hne
      exact absurd rfl hne

/-- C10 witness: a booking whose raw party list holds one member ("Bob")
distinct from the lead "Alice Smith" gets the two-line section, and the
iff of the theorem holds at that input. -/
theorem party_details_c10_witness :
    processParty mParty.party_raw =
      Except.ok [(⟨"Bob", Option.none, Option.none⟩ : PartyEntry)] ∧
    parse_party_list mParty.party_raw mParty.guest =
      Except.ok ["Guest 1: Alice Smith", "Guest 2: Bob"] ∧
    ((["Guest 1: Alice Smith", "Guest 2: Bob"] : List String) ≠ [] ↔
      ([(⟨"Bob", Option.none, Option.none⟩ : PartyEntry)]).any
        (meaningfulOther mParty.guest) = true) :=
  ⟨rfl, rfl,
   (party_details_c10 mParty [(⟨"Bob", Option.none, Option.none⟩ : PartyEntry)]
      ["Guest 1: Alice Smith", "Guest 2: Bob"] rfl rfl).2.1⟩
